import Mathlib

/-!
Verification development for the structural similarity compression engine of
even-better-playwright-mcp: the `DOMSimHash` fingerprinting and run-detection
module (`src/dom-simhash.ts`) and the snapshot regex search utility
(`src/utils/search.ts`).

Modelling conventions:
* JavaScript strings are modelled as `List Char` (UTF-16 code units; all
  strings appearing here are in the Basic Multilingual Plane, where
  `charCodeAt` agrees with `Char.toNat`).
* JavaScript 32-bit integer coercions (`x | 0`-style wrap, `<<`, `>>> 0`)
  are modelled explicitly over `Int`/`Nat` with `% 2 ^ 32`; JS `number`
  arithmetic on intermediate values is exact below `2 ^ 53` and is modelled
  as exact integer arithmetic.
* The per-instance memoization cache `hashCache : Map<ElementNode, number>`
  is keyed by JavaScript object identity; following the spec's design note
  it is modelled as an association list keyed by a stable integer `id`
  field, which stands for the object identity of a node.
-/

set_option maxHeartbeats 4000000
set_option maxRecDepth 100000

/-- an ElementNode from `types/outline.ts`: one parsed outline entry.  The
optional `parent` back-reference, `groupId` and `hasInteraction` fields play
no role in the fingerprint engine and are omitted; `id` models JavaScript
object identity (see module docstring). -/
inductive ElementNode : Type where
  | mk (indent : Nat) (type : List Char) (ref : List Char) (content : List Char)
       (line : List Char) (children : List ElementNode) (priority : Nat)
       (isRepetitive : Bool) (lineNumber : Nat) (id : Nat)

def ElementNode.indent : ElementNode → Nat
  | .mk i _ _ _ _ _ _ _ _ _ => i

def ElementNode.type : ElementNode → List Char
  | .mk _ t _ _ _ _ _ _ _ _ => t

def ElementNode.ref : ElementNode → List Char
  | .mk _ _ r _ _ _ _ _ _ _ => r

def ElementNode.content : ElementNode → List Char
  | .mk _ _ _ c _ _ _ _ _ _ => c

def ElementNode.line : ElementNode → List Char
  | .mk _ _ _ _ l _ _ _ _ _ => l

def ElementNode.children : ElementNode → List ElementNode
  | .mk _ _ _ _ _ cs _ _ _ _ => cs

def ElementNode.lineNumber : ElementNode → Nat
  | .mk _ _ _ _ _ _ _ _ n _ => n

def ElementNode.id : ElementNode → Nat
  | .mk _ _ _ _ _ _ _ _ _ i => i

instance : Inhabited ElementNode := ⟨.mk 0 [] [] [] [] [] 0 false 0 0⟩

/-- model of JavaScript `String.prototype.includes`: `containsSub s pat`
is true iff `pat` occurs as a contiguous substring of `s`. -/
def containsSub : List Char → List Char → Bool
  | s, pat =>
    pat.isPrefixOf s ||
      match s with
      | [] => false
      | _ :: rest => containsSub rest pat

/-- model of JavaScript `Array.prototype.join` with a one-character
separator. -/
def joinSep (sep : Char) : List (List Char) → List Char
  | [] => []
  | [x] => x
  | x :: xs => x ++ sep :: joinSep sep xs

/-- digits of `n` in base 10, most significant first; the first argument is
recursion fuel (`n` itself is always enough). -/
def natToCharsAux : Nat → Nat → List Char
  | 0, _ => []
  | fuel + 1, n =>
    if n = 0 then [] else natToCharsAux fuel (n / 10) ++ [Char.ofNat (48 + n % 10)]

/-- model of JavaScript number-to-string coercion for a nonnegative
integer (decimal notation). -/
def natToChars (n : Nat) : List Char :=
  if n = 0 then "0".data else natToCharsAux (n + 1) n

/-- wrap of an exact integer into a signed 32-bit value (ECMAScript
`ToInt32`). -/
def toInt32 (x : Int) : Int := (x + 2 ^ 31) % 2 ^ 32 - 2 ^ 31

/-- wrap of an exact integer into an unsigned 32-bit value (ECMAScript
`ToUint32`, i.e. the `>>> 0` idiom). -/
def toUint32 (x : Int) : Int := x % 2 ^ 32

namespace DOMSimHash

/-- the `HASH_BITS` constant of `DOMSimHash`. -/
def HASH_BITS : Nat := 32

/-- `getSkeletonSignature`: own type, `>`-separated from the `+`-joined types
of the first 5 children and, when the first child has children, the
`+`-joined types of its first 3 children. -/
def getSkeletonSignature (node : ElementNode) : List Char :=
  let childTypes := joinSep '+' ((node.children.take 5).map (·.type))
  -- JS `if (childTypes)`: the empty string is falsy
  let signature := node.type ++ (if childTypes.isEmpty then [] else '>' :: childTypes)
  match node.children with
  | [] => signature
  | c0 :: _ =>
    if c0.children.isEmpty then signature
    else signature ++ '>' :: joinSep '+' ((c0.children.take 3).map (·.type))

/-- `getShapeSignature`: `w` followed by the `-`-joined child count of the
node and the child counts of its first 3 children. -/
def getShapeSignature (node : ElementNode) : List Char :=
  let widths := node.children.length :: (node.children.take 3).map (fun c => c.children.length)
  'w' :: joinSep '-' (widths.map natToChars)

/-- the DFS visit of the inner `count` helper of `getTypeCountSignature`:
the list of type labels of all nodes in the first `fuel` levels (the source
cuts off at `depth > 2`, i.e. fuel 3).  Only occurrence counts are consumed
downstream, so the visit order is immaterial. -/
def countTypes : Nat → ElementNode → List (List Char)
  | 0, _ => []
  | fuel + 1, n => n.type :: (n.children.map (countTypes fuel)).flatten

/-- `getTypeCountSignature`: for each type of the fixed `important`
vocabulary present in the first 3 levels, its first letter followed by its
occurrence count; `empty` when no such type occurs. -/
def getTypeCountSignature (node : ElementNode) : List Char :=
  let types := countTypes 3 node
  let important := ["button".data, "link".data, "text".data, "img".data,
    "heading".data, "checkbox".data, "radio".data]
  let sig := ((important.map (fun t =>
      let c := types.count t
      if 0 < c then t.take 1 ++ natToChars c else [])).filter (fun s => ¬s.isEmpty)).flatten
  if sig.isEmpty then "empty".data else sig

/-- the recursive `check` helper of `hasInteractiveElements` (cutoff at
`depth > 2`, i.e. fuel 3). -/
def interactiveCheck : Nat → ElementNode → Bool
  | 0, _ => false
  | fuel + 1, n =>
    (n.type == "button".data || n.type == "link".data ||
     n.type == "checkbox".data || n.type == "radio".data) ||
    n.children.any (interactiveCheck fuel)

/-- `hasInteractiveElements`: pointer-cursor marker on the own line, or a
known interactive type within 2 levels below the node. -/
def hasInteractiveElements (node : ElementNode) : Bool :=
  containsSub node.line "[cursor=pointer]".data || interactiveCheck 3 node

mutual
/-- `getMaxDepth`: 0 for a childless node, otherwise one more than the
maximum child depth. -/
def getMaxDepth : ElementNode → Nat
  | .mk _ _ _ _ _ cs _ _ _ _ => if cs.isEmpty then 0 else 1 + maxDepthList cs

/-- maximum of `getMaxDepth` over a list of nodes (`Math.max` over the
mapped children). -/
def maxDepthList : List ElementNode → Nat
  | [] => 0
  | c :: cs => max (getMaxDepth c) (maxDepthList cs)
end

/-- `extractFeatures`: skeleton, shape, type-count, optionally
`interactive`, and the depth feature `d<maxDepth>`. -/
def extractFeatures (node : ElementNode) : List (List Char) :=
  [getSkeletonSignature node, getShapeSignature node, getTypeCountSignature node] ++
  (if hasInteractiveElements node then ["interactive".data] else []) ++
  ['d' :: natToChars (getMaxDepth node)]

/-- `djb2Hash`: seed 5381, per character `hash = ((hash << 5) + hash) + c`
(the JS `<<` wraps `hash * 32` to a signed 32-bit value), and a final
`>>> 0` to an unsigned 32-bit integer. -/
def djb2Hash (s : List Char) : Nat :=
  let hash := s.foldl (fun hash c => toInt32 (hash * 32) + hash + (c.toNat : Int)) 5381
  (toUint32 hash).toNat

/-- `getWeight`: 5 for a feature containing `>`, 3 for one starting with
`w`, 2 for one starting with `d`, 1 otherwise. -/
def getWeight (feature : List Char) : Nat :=
  if feature.contains '>' then 5
  else if ("w".data).isPrefixOf feature then 3
  else if ("d".data).isPrefixOf feature then 2
  else 1

/-- the simhash combination step of `computeHash`: each feature hash
contributes `±weight` to each of the 32 accumulator bins according to its
bits, and bin `i` yields bit `i` of the result iff its accumulator is
positive.  Bit `i` of the JS value `(hash >> i) & 1` and the JS
`simhash |= 1 << i` (signed at `i = 31`) are modelled by their common
32-bit pattern over `Nat`. -/
def simhashOfFeatures (features : List (List Char)) : Nat :=
  let vector : List Int := features.foldl (fun vec f =>
      let hash := djb2Hash f
      let weight : Int := getWeight f
      vec.mapIdx (fun i v => v + if (hash >>> i) % 2 = 1 then weight else -weight))
    (List.replicate HASH_BITS 0)
  (List.range HASH_BITS).foldl
    (fun simhash i => if 0 < vector.getD i 0 then simhash ||| (1 <<< i) else simhash) 0

/-- the cache-free value computed by `computeHash`. -/
def computeHashPure (node : ElementNode) : Nat :=
  simhashOfFeatures (extractFeatures node)

/-- `computeHash` with its memoization cache made explicit: on a cache hit
the cached value is returned unchanged, otherwise the computed value is
stored under the node's identity. -/
def computeHash (node : ElementNode) (cache : List (Nat × Nat)) :
    Nat × List (Nat × Nat) :=
  match cache.lookup node.id with
  | some v => (v, cache)
  | none => (computeHashPure node, (node.id, computeHashPure node) :: cache)

/-- `clearCache`: empties the memoization cache. -/
def clearCache (_cache : List (Nat × Nat)) : List (Nat × Nat) := []

/-- the popcount loop of `hammingDistance` (`count += xor & 1; xor >>>= 1`);
the first argument is recursion fuel (the value itself is always enough). -/
def bitCountAux : Nat → Nat → Nat
  | 0, _ => 0
  | fuel + 1, n => if n = 0 then 0 else n % 2 + bitCountAux fuel (n / 2)

/-- number of set bits of a natural number. -/
def bitCount (n : Nat) : Nat := bitCountAux n n

/-- `hammingDistance`: popcount of the bitwise XOR of the two hashes. -/
def hammingDistance (hash1 hash2 : Nat) : Nat := bitCount (hash1 ^^^ hash2)

/-- `areSimilar`: Hamming distance of the two fingerprints within the
threshold (default 3). -/
def areSimilar (node1 node2 : ElementNode) (threshold : Nat := 3) : Bool :=
  hammingDistance (computeHashPure node1) (computeHashPure node2) ≤ threshold

/-- the mutable state of the sliding search in `findSimilarSequence`
(`maxLen`, `bestStart`, `bestEnd`, `bestBaseHash`, all initialised to 0). -/
structure ScanState where
  maxLen : Nat
  bestStart : Nat
  bestEnd : Nat
  bestBaseHash : Nat
deriving DecidableEq, Repr

/-- the inner `while (j < nodes.length)` loop of `findSimilarSequence`,
for anchor index `i` with anchor hash `base`: `rest` is the list of hashes
from index `j` on, `simCount` the number of anchor-similar elements seen in
the window so far (the anchor included).  A similar element extends the
window and is recorded when the count reaches 3 and beats `maxLen`; a
dissimilar element ends the scan only once the count has reached 3,
otherwise it is passed over with the window kept open. -/
def innerScan (base i : Nat) : List Nat → Nat → Nat → ScanState → ScanState
  | [], _, _, st => st
  | h :: rest, j, simCount, st =>
    if hammingDistance base h ≤ 3 then
      let simCount' := simCount + 1
      let st' := if 3 ≤ simCount' ∧ st.maxLen < simCount' then
          ⟨simCount', i, j, base⟩ else st
      innerScan base i rest (j + 1) simCount' st'
    else if 3 ≤ simCount then st
    else innerScan base i rest (j + 1) simCount st

/-- the outer `for (i = 0; i <= nodes.length - 3; i++)` loop of
`findSimilarSequence`: `remaining` is the list of hashes from index `i` on,
so the loop guard `i ≤ length - 3` reads `3 ≤ remaining.length`; the inner
scan starts at `j = i + 1` with `simCount = 1`. -/
def outerScan : List Nat → Nat → ScanState → ScanState
  | [], _, st => st
  | base :: rest, i, st =>
    if 2 ≤ rest.length then
      outerScan rest (i + 1) (innerScan base i rest (i + 1) 1 st)
    else st

/-- result of `findSimilarSequence` at the level of hash lists. -/
structure ScanResult where
  start : Nat
  endIdx : Nat
  baseHash : Nat
deriving DecidableEq, Repr

/-- `findSimilarSequence` on the list of fingerprints: `none` for fewer
than 3 elements, otherwise the state left by the sliding search if it
recorded a window of at least 3 similar elements. -/
def findSimilarSequenceH (hashes : List Nat) : Option ScanResult :=
  if hashes.length < 3 then none
  else
    let st := outerScan hashes 0 ⟨0, 0, 0, 0⟩
    if 3 ≤ st.maxLen then some ⟨st.bestStart, st.bestEnd, st.bestBaseHash⟩ else none

/-- result record of `findSimilarSequence` (`start`, `end`, `samples`,
`baseHash`). -/
structure FoundSeq where
  start : Nat
  endIdx : Nat
  samples : List ElementNode
  baseHash : Nat

/-- `findSimilarSequence`: the sliding search over the node fingerprints,
with `samples = nodes.slice(start, end + 1)`.  In the source each node is
hashed through the memoization cache, whose entries always hold the pure
hash of the node they key (see `computeHash`), so hashing is applied
up front. -/
def findSimilarSequence (nodes : List ElementNode) : Option FoundSeq :=
  (findSimilarSequenceH (nodes.map computeHashPure)).map (fun r =>
    ⟨r.start, r.endIdx, (nodes.drop r.start).take (r.endIdx + 1 - r.start), r.baseHash⟩)

/-- result record of `findAllSimilarSequences` (`start`, `end`, `count`,
`sample`). -/
structure SeqRecord where
  start : Nat
  endIdx : Nat
  count : Nat
  sample : ElementNode

/-- result of the `findAllSimilarSequences` loop: the found records, the
original indices marked processed for each record (the `processed.add`
calls of one iteration), and the number of `while` iterations entered. -/
structure AllResult where
  sequences : List SeqRecord
  claimed : List (List Nat)
  iterations : Nat

/-- the `while (processed.size < nodes.length)` loop of
`findAllSimilarSequences`.  `indexMap` and `unprocessed` collect the
indices and nodes not yet claimed; a found run is translated back through
`indexMap` and its window marked processed.  The first argument is
recursion fuel; `findAllSimilarSequences` passes `nodes.length`, which is
always enough (theorem `C5_findAll_iterations_bound`). -/
def findAllLoop (nodes : List ElementNode) : Nat → Finset ℕ → AllResult
  | 0, _ => ⟨[], [], 0⟩
  | fuel + 1, processed =>
    if processed.card < nodes.length then
      let indexMap := (List.range nodes.length).filter (fun i => i ∉ processed)
      let unprocessed := indexMap.map (fun i => nodes.getD i default)
      if unprocessed.length < 3 then ⟨[], [], 1⟩
      else
        match findSimilarSequence unprocessed with
        | some seq =>
          let actualStart := indexMap.getD seq.start 0
          let actualEnd := indexMap.getD seq.endIdx 0
          let record : SeqRecord :=
            ⟨actualStart, actualEnd, seq.endIdx - seq.start + 1, nodes.getD actualStart default⟩
          let claimedNow :=
            (List.range' seq.start (seq.endIdx + 1 - seq.start)).map (fun k => indexMap.getD k 0)
          let rest := findAllLoop nodes fuel (processed ∪ claimedNow.toFinset)
          ⟨record :: rest.sequences, claimedNow :: rest.claimed, rest.iterations + 1⟩
        | none => ⟨[], [], 1⟩
    else ⟨[], [], 0⟩

/-- `findAllSimilarSequences`: repeatedly find a run among the unclaimed
nodes, claim its window, and stop when fewer than 3 nodes remain unclaimed
or no run is found. -/
def findAllSimilarSequences (nodes : List ElementNode) : List SeqRecord :=
  (findAllLoop nodes nodes.length ∅).sequences

/-- the sets of original indices claimed by each returned run (the
`processed.add` bookkeeping of `findAllSimilarSequences`, per run). -/
def findAllClaimed (nodes : List ElementNode) : List (List Nat) :=
  (findAllLoop nodes nodes.length ∅).claimed

/-- the number of `while` iterations `findAllSimilarSequences` enters. -/
def findAllIterations (nodes : List ElementNode) : Nat :=
  (findAllLoop nodes nodes.length ∅).iterations

/-- the reference string hash stated by the spec: seed 5381,
`hash = hash * 33 + charCode` per character, the result reduced modulo
`2 ^ 32` to an unsigned 32-bit integer.  Kept separate from `djb2Hash`
(which is translated from the source with its JS 32-bit `<<` wrap) so the
two can be compared. -/
def djb2Reference (s : List Char) : Nat :=
  (s.foldl (fun hash c => hash * 33 + c.toNat) 5381) % 2 ^ 32

end DOMSimHash

/-- options of `searchSnapshot` (`search.ts`): regex pattern, case flag,
line limit (defaults `false` and 100). -/
structure SearchOptions where
  pattern : String
  ignoreCase : Bool := false
  lineLimit : Nat := 100

/-- response of `searchSnapshot`: result text, number of matching lines,
truncation flag. -/
structure SearchResponse where
  result : String
  matchCount : Nat
  truncated : Bool
deriving DecidableEq, Repr

/-- `searchSnapshot` (`search.ts`).  The JavaScript regex engine is an
external dependency, passed here as `newRegExp`: given the pattern and the
case flag it either fails (the `new RegExp` constructor throws, carrying a
message) or yields a line predicate (`regex.test` with `lastIndex` reset
per line).  The `try/catch` of the source is the `Except` match: a failed
compile reports the invalid pattern and never propagates. -/
def searchSnapshot (newRegExp : String → Bool → Except String (String → Bool))
    (snapshot : String) (options : SearchOptions) : SearchResponse :=
  -- hard cap of 100 results
  let effectiveLimit := min options.lineLimit 100
  match newRegExp options.pattern options.ignoreCase with
  | .error message => ⟨"Error: Invalid regex pattern - " ++ message, 0, false⟩
  | .ok test =>
    let lines := snapshot.splitOn "\n"
    let matchingLines := lines.filter test
    let totalMatches := matchingLines.length
    if totalMatches = 0 then ⟨"", 0, false⟩
    else if effectiveLimit < totalMatches then
      let truncatedLines := matchingLines.take effectiveLimit ++
        ["<..." ++ toString (totalMatches - effectiveLimit) ++ " more results...>"]
      ⟨String.intercalate "\n" truncatedLines, totalMatches, true⟩
    else ⟨String.intercalate "\n" matchingLines, totalMatches, false⟩

/-- a concrete childless `button` node used by counterexamples and
witnesses. -/
def exButton : ElementNode :=
  .mk 1 "button".data "e1".data "Click".data "button \"Click\" [ref=e1]".data [] 5 false 1 1

/-- a second childless `button` node: structurally identical to `exButton`
but with different content, reference token, line text, line number,
priority and identity. -/
def exButton2 : ElementNode :=
  .mk 1 "button".data "e7".data "Buy now".data "button \"Buy now\" [ref=e7]".data [] 2 true 42 7

/-- a concrete `listitem` node with two `button` children; its fingerprint
is at Hamming distance 9 (> 3) from `exButton`'s. -/
def exList : ElementNode :=
  .mk 1 "listitem".data "e9".data "".data "listitem [ref=e9]".data [exButton, exButton] 5 false 9 9

mutual
/-- structural agreement of two nodes: equal type labels, equal presence
of the `[cursor=pointer]` marker on their lines, and componentwise
structural agreement of their child lists.  Content, reference token, line
number, the rest of the line text and all remaining fields are left free —
these are exactly the inputs `extractFeatures` can inspect. -/
def sameShape : ElementNode → ElementNode → Bool
  | .mk _ t1 _ _ l1 cs1 _ _ _ _, .mk _ t2 _ _ l2 cs2 _ _ _ _ =>
    t1 == t2 &&
    (containsSub l1 "[cursor=pointer]".data == containsSub l2 "[cursor=pointer]".data) &&
    sameShapeList cs1 cs2

/-- componentwise structural agreement of two node lists. -/
def sameShapeList : List ElementNode → List ElementNode → Bool
  | [], [] => true
  | c :: cs, d :: ds => sameShape c d && sameShapeList cs ds
  | [], _ :: _ => false
  | _ :: _, [] => false
end

/-- invariant of the sliding-search state: once a window has been recorded
(`maxLen ≥ 3`), the recorded range lies inside the hash list with
`bestStart + 2 ≤ bestEnd`, the recorded base hash is the hash at
`bestStart`, and the hash at `bestEnd` is within Hamming distance 3 of
it. -/
def DOMSimHash.ScanInv (hs : List Nat) (st : DOMSimHash.ScanState) : Prop :=
  3 ≤ st.maxLen →
    st.bestStart + 2 ≤ st.bestEnd ∧ st.bestEnd < hs.length ∧
    st.bestBaseHash = hs.getD st.bestStart 0 ∧
    DOMSimHash.hammingDistance (hs.getD st.bestStart 0) (hs.getD st.bestEnd 0) ≤ 3

namespace DOMSimHash

/-! ## Fingerprint arithmetic: C6, C7, C9 -/

/-- C6: for every pair of 32-bit fingerprint values `a` and `b`,
`hammingDistance a b = hammingDistance b a`, and for every fingerprint
value `a`, `hammingDistance a a = 0` (proved for all natural inputs, which
covers all 32-bit values). -/
theorem C6_hammingDistance_symm_self :
    ∀ a b : Nat, hammingDistance a b = hammingDistance b a ∧ hammingDistance a a = 0 := by
  intro a b
  constructor
  · unfold hammingDistance
    rw [Nat.xor_comm]
  · unfold hammingDistance
    rw [Nat.xor_self]
    rfl

theorem toInt32_emod (x : Int) : toInt32 x % 2 ^ 32 = x % 2 ^ 32 := by
  unfold toInt32
  omega

/-- C7: `djb2Hash` agrees with the reference fold `hash := hash * 33 +
charCode` from seed 5381, reduced modulo `2 ^ 32`. -/
theorem C7_djb2Hash_eq_reference :
    ∀ s : List Char, djb2Hash s = djb2Reference s := by
  have key : ∀ (s : List Char) (hi : Int) (hn : Nat), hi % 2 ^ 32 = (hn : Int) % 2 ^ 32 →
      (s.foldl (fun hash c => toInt32 (hash * 32) + hash + (c.toNat : Int)) hi) % 2 ^ 32 =
        ((s.foldl (fun hash c => hash * 33 + c.toNat) hn : Nat) : Int) % 2 ^ 32 := by
    intro s
    induction s with
    | nil => intro hi hn h; simpa using h
    | cons c cs ih =>
      intro hi hn h
      simp only [List.foldl_cons]
      apply ih
      push_cast
      have h32 : toInt32 (hi * 32) % 2 ^ 32 = hi * 32 % 2 ^ 32 := toInt32_emod _
      omega
  intro s
  simp only [djb2Hash, djb2Reference, toUint32]
  rw [key s 5381 5381 rfl]
  omega

/-- C9: on any cache state, computing the hash of a node and then computing
it again on the resulting cache returns the same value (and the same
cache): the result is memoized under the node's identity, and only
`clearCache` discards entries. -/
theorem C9_computeHash_memoized :
    ∀ (node : ElementNode) (cache : List (Nat × Nat)),
      computeHash node (computeHash node cache).2 = computeHash node cache := by
  intro node cache
  unfold computeHash
  cases h : cache.lookup node.id with
  | some v => simp [h]
  | none => simp [h, List.lookup]

/-- C9 is stated without hypotheses; this exercises it on a concrete node
and cache all the same: a second call returns the cached first value. -/
theorem computeHash_clearCache_fresh :
    ∀ (node : ElementNode) (cache : List (Nat × Nat)),
      (computeHash node (clearCache cache)).1 = computeHashPure node := by
  intro node cache
  unfold computeHash clearCache
  simp [List.lookup]

end DOMSimHash

/-! ## Search error handling: C8 -/

/-- C8: for every regex engine, snapshot string and options whose pattern
the engine rejects (modelling an invalid regular expression, on which
`new RegExp` throws), `searchSnapshot` returns normally with an
explanatory `Error: Invalid regex pattern` message, `matchCount = 0` and
`truncated = false`. -/
theorem C8_searchSnapshot_invalid_pattern :
    ∀ (newRegExp : String → Bool → Except String (String → Bool))
      (snapshot : String) (options : SearchOptions) (message : String),
      newRegExp options.pattern options.ignoreCase = .error message →
      searchSnapshot newRegExp snapshot options =
        ⟨"Error: Invalid regex pattern - " ++ message, 0, false⟩ := by
  intro newRegExp snapshot options message h
  unfold searchSnapshot
  rw [h]

/-- witness for C8: a concrete engine that rejects the unterminated group
pattern `(`, on a concrete snapshot. -/
theorem C8_searchSnapshot_invalid_pattern_witness :
    searchSnapshot (fun _ _ => .error "Invalid regular expression: missing )")
        "heading [ref=e1]\nbutton [ref=e2]" ⟨"(", false, 100⟩ =
      ⟨"Error: Invalid regex pattern - Invalid regular expression: missing )", 0, false⟩ :=
  C8_searchSnapshot_invalid_pattern _ _ _ _ rfl


namespace DOMSimHash

theorem contains_iff {l : List Char} {c : Char} : l.contains c = true ↔ c ∈ l := by simp

theorem singletonPrefix_true (a : Char) (l : List Char) :
    ([a] : List Char).isPrefixOf (a :: l) = true := by
  show (a == a && ([] : List Char).isPrefixOf l) = true
  simp

theorem singletonPrefix_false {a c : Char} (l : List Char) (h : c ≠ a) :
    ([a] : List Char).isPrefixOf (c :: l) = false := by
  show (a == c && ([] : List Char).isPrefixOf l) = false
  rw [show (a == c) = false from beq_eq_false_iff_ne.2 fun heq => h heq.symm, Bool.false_and]

theorem mem_natToCharsAux {fuel n : Nat} {c : Char} (h : c ∈ natToCharsAux fuel n) :
    48 ≤ c.toNat ∧ c.toNat ≤ 57 := by
  induction fuel generalizing n with
  | zero => simp [natToCharsAux] at h
  | succ fuel ih =>
    rw [natToCharsAux] at h
    by_cases h0 : n = 0
    · simp [h0] at h
    · rw [if_neg h0] at h
      rcases List.mem_append.1 h with h1 | h2
      · exact ih h1
      · have h10 : n % 10 < 10 := Nat.mod_lt _ (by norm_num)
        simp only [List.mem_singleton] at h2
        subst h2
        set r := n % 10 with hr
        interval_cases r <;> decide

theorem mem_natToChars {n : Nat} {c : Char} (h : c ∈ natToChars n) :
    48 ≤ c.toNat ∧ c.toNat ≤ 57 := by
  by_cases h0 : n = 0
  · rw [natToChars, if_pos h0] at h
    have : c = '0' := by simpa using h
    subst this
    decide
  · rw [natToChars, if_neg h0] at h
    exact mem_natToCharsAux h

theorem mem_joinSep {sep : Char} {l : List (List Char)} {c : Char} (h : c ∈ joinSep sep l) :
    c = sep ∨ ∃ x ∈ l, c ∈ x := by
  induction l with
  | nil => simp [joinSep] at h
  | cons x xs ih =>
    cases xs with
    | nil => exact Or.inr ⟨x, List.mem_cons_self _ _, by simpa [joinSep] using h⟩
    | cons y ys =>
      simp only [joinSep] at h
      rcases List.mem_append.1 h with h1 | h2
      · exact Or.inr ⟨x, List.mem_cons_self _ _, h1⟩
      · rcases List.mem_cons.1 h2 with h3 | h3
        · exact Or.inl h3
        · rcases ih h3 with h4 | ⟨z, hz, hcz⟩
          · exact Or.inl h4
          · exact Or.inr ⟨z, List.mem_cons_of_mem _ hz, hcz⟩

theorem getWeight_shape (node : ElementNode) : getWeight (getShapeSignature node) = 3 := by
  have hsig : getShapeSignature node = 'w' :: joinSep '-'
      ((node.children.length :: (node.children.take 3).map fun c => c.children.length).map
        natToChars) := rfl
  have hb : '>' ∉ getShapeSignature node := by
    rw [hsig]
    intro hc
    rcases List.mem_cons.1 hc with h | h
    · exact absurd h (by decide)
    · rcases mem_joinSep h with h | ⟨x, hx, hcx⟩
      · exact absurd h (by decide)
      · rcases List.mem_map.1 hx with ⟨m, _, rfl⟩
        have hd57 := (mem_natToChars hcx).2
        revert hd57; decide
  have hcon : (getShapeSignature node).contains '>' = false := by
    rw [← Bool.not_eq_true]
    rw [contains_iff]
    exact hb
  have hw : (("w".data).isPrefixOf (getShapeSignature node)) = true := by
    rw [hsig]
    exact singletonPrefix_true 'w' _
  unfold getWeight
  rw [hcon]
  simp only [Bool.false_eq_true, if_false]
  rw [hw]
  simp

theorem exists_of_head?_flatten {l : List (List Char)} {c : Char}
    (h : l.flatten.head? = some c) : ∃ x ∈ l, x.head? = some c := by
  induction l with
  | nil => simp at h
  | cons x xs ih =>
    cases x with
    | nil =>
      obtain ⟨y, hy, hy2⟩ := ih (by simpa using h)
      exact ⟨y, List.mem_cons_of_mem _ hy, hy2⟩
    | cons a as =>
      refine ⟨a :: as, List.mem_cons_self _ _, ?_⟩
      simp only [List.flatten_cons, List.cons_append, List.head?_cons] at h
      simpa using h

theorem head?_take_one_cons (a : Char) (as bs : List Char) :
    ((a :: as).take 1 ++ bs).head? = some a := rfl

theorem getWeight_depth (d : Nat) : getWeight ('d' :: natToChars d) = 2 := by
  have hb : '>' ∉ ('d' :: natToChars d) := by
    intro hc
    rcases List.mem_cons.1 hc with h | h
    · exact absurd h (by decide)
    · have h57 := (mem_natToChars h).2
      revert h57; decide
  have hcon : (('d' :: natToChars d).contains '>') = false := by
    rw [← Bool.not_eq_true, contains_iff]; exact hb
  have hw : (("w".data).isPrefixOf ('d' :: natToChars d)) = false :=
    singletonPrefix_false _ (by decide)
  have hd : (("d".data).isPrefixOf ('d' :: natToChars d)) = true :=
    singletonPrefix_true 'd' _
  unfold getWeight
  rw [hcon]
  simp only [Bool.false_eq_true, if_false]
  rw [hw]
  simp only [Bool.false_eq_true, if_false]
  rw [hd]
  simp

theorem getWeight_typeCount (node : ElementNode) : getWeight (getTypeCountSignature node) = 1 := by
  have hunfold : getTypeCountSignature node =
      (if (((["button".data, "link".data, "text".data, "img".data,
          "heading".data, "checkbox".data, "radio".data].map (fun t =>
          let c := (countTypes 3 node).count t
          if 0 < c then t.take 1 ++ natToChars c else [])).filter
            (fun s => ¬s.isEmpty)).flatten).isEmpty
        then "empty".data
        else ((["button".data, "link".data, "text".data, "img".data,
          "heading".data, "checkbox".data, "radio".data].map (fun t =>
          let c := (countTypes 3 node).count t
          if 0 < c then t.take 1 ++ natToChars c else [])).filter
            (fun s => ¬s.isEmpty)).flatten) := rfl
  rw [hunfold]
  set pieces := ((["button".data, "link".data, "text".data, "img".data,
      "heading".data, "checkbox".data, "radio".data].map (fun t =>
      let c := (countTypes 3 node).count t
      if 0 < c then t.take 1 ++ natToChars c else [])).filter
        (fun s => ¬s.isEmpty)) with hpieces
  split
  · decide
  · next hne =>
    have hnenil : pieces.flatten ≠ [] := by
      intro habs
      rw [habs] at hne
      exact hne rfl
    have hb : '>' ∉ pieces.flatten := by
      intro hc
      rcases List.mem_flatten.1 hc with ⟨p, hp, hcp⟩
      have hp' := List.mem_of_mem_filter hp
      rcases List.mem_map.1 hp' with ⟨t, ht, hpt⟩
      rw [← hpt] at hcp
      have hcp' : '>' ∈ (if 0 < (countTypes 3 node).count t then
          t.take 1 ++ natToChars ((countTypes 3 node).count t) else []) := hcp
      simp only [List.mem_cons, List.not_mem_nil, or_false] at ht
      have hsplit : '>' ∈ t.take 1 ∨ ('>' ∈ natToChars ((countTypes 3 node).count t)) := by
        split at hcp'
        · exact (List.mem_append.1 hcp').imp id id
        · simp at hcp'
      rcases hsplit with h | h
      · have hmt := List.mem_of_mem_take h
        rcases ht with rfl | rfl | rfl | rfl | rfl | rfl | rfl <;> exact absurd hmt (by decide)
      · have h57 := (mem_natToChars h).2
        revert h57; decide
    have hcon : (pieces.flatten.contains '>') = false := by
      rw [← Bool.not_eq_true, contains_iff]; exact hb
    obtain ⟨c0, rest, hflat⟩ : ∃ c0 rest, pieces.flatten = c0 :: rest := by
      cases hx : pieces.flatten with
      | nil => exact absurd hx hnenil
      | cons a as => exact ⟨a, as, rfl⟩
    have hc0 : c0 ∈ (['b', 'l', 't', 'i', 'h', 'c', 'r'] : List Char) := by
      have hhead : pieces.flatten.head? = some c0 := by rw [hflat]; rfl
      obtain ⟨p, hp, hphead⟩ := exists_of_head?_flatten hhead
      have hp' := List.mem_of_mem_filter hp
      rcases List.mem_map.1 hp' with ⟨t, ht, hpt⟩
      rw [← hpt] at hphead
      have hph : ((if 0 < (countTypes 3 node).count t then
          t.take 1 ++ natToChars ((countTypes 3 node).count t) else []) : List Char).head? =
          some c0 := hphead
      simp only [List.mem_cons, List.not_mem_nil, or_false] at ht
      rcases ht with rfl | rfl | rfl | rfl | rfl | rfl | rfl <;>
        · split at hph
          · rw [head?_take_one_cons] at hph
            cases Option.some.inj hph
            decide
          · exact absurd hph (by simp)
    have hw : (("w".data).isPrefixOf pieces.flatten) = false := by
      rw [hflat]
      refine singletonPrefix_false _ ?_
      fin_cases hc0 <;> decide
    have hd : (("d".data).isPrefixOf pieces.flatten) = false := by
      rw [hflat]
      refine singletonPrefix_false _ ?_
      fin_cases hc0 <;> decide
    unfold getWeight
    rw [hcon]
    simp only [Bool.false_eq_true, if_false]
    rw [hw]
    simp only [Bool.false_eq_true, if_false]
    rw [hd]
    simp

theorem skeleton_childless {node : ElementNode} (h : node.children = []) :
    getSkeletonSignature node = node.type := by
  have : getSkeletonSignature node =
      (let childTypes := joinSep '+' ((node.children.take 5).map (·.type))
       let signature := node.type ++ (if childTypes.isEmpty then [] else '>' :: childTypes)
       match node.children with
       | [] => signature
       | c0 :: _ =>
         if c0.children.isEmpty then signature
         else signature ++ '>' :: joinSep '+' ((c0.children.take 3).map (·.type))) := rfl
  rw [this, h]
  simp [joinSep]

theorem skeleton_weight_five {node : ElementNode} (c0 : ElementNode) (cs : List ElementNode)
    (hch : node.children = c0 :: cs)
    (hne : c0.type ≠ [] ∨ cs ≠ [] ∨ c0.children ≠ []) :
    getWeight (getSkeletonSignature node) = 5 := by
  suffices h : '>' ∈ getSkeletonSignature node by
    unfold getWeight
    rw [if_pos (contains_iff.2 h)]
  have hrw : getSkeletonSignature node =
      (let childTypes := joinSep '+' (((c0 :: cs).take 5).map (·.type))
       let signature := node.type ++ (if childTypes.isEmpty then [] else '>' :: childTypes)
       if c0.children.isEmpty then signature
       else signature ++ '>' :: joinSep '+' ((c0.children.take 3).map (·.type))) := by
    unfold getSkeletonSignature
    rw [hch]
  rw [hrw]
  simp only []
  by_cases hgrand : c0.children.isEmpty
  · rw [if_pos hgrand]
    have hcase : c0.type ≠ [] ∨ cs ≠ [] := by
      rcases hne with h | h | h
      · exact Or.inl h
      · exact Or.inr h
      · rw [List.isEmpty_iff] at hgrand
        exact absurd hgrand h
    have hjoin : (joinSep '+' (((c0 :: cs).take 5).map (·.type))).isEmpty = false := by
      cases cs with
      | nil =>
        rcases hcase with h | h
        · show (joinSep '+' [c0.type]).isEmpty = false
          show c0.type.isEmpty = false
          cases hc : c0.type with
          | nil => exact absurd hc h
          | cons a as => rfl
        · exact absurd rfl h
      | cons d ds =>
        show (c0.type ++ '+' :: joinSep '+' (((d :: ds).take 4).map (·.type))).isEmpty = false
        cases hc : c0.type with
        | nil => rfl
        | cons a as => rfl
    rw [hjoin]
    simp only [Bool.false_eq_true, if_false]
    exact List.mem_append_right _ (List.mem_cons_self _ _)
  · rw [if_neg hgrand]
    exact List.mem_append_right _ (List.mem_cons_self _ _)

/-- C3 (amended): the shape feature always has weight 3, the depth feature
weight 2, the `interactive` and type-count features weight 1; the skeleton
feature has weight 5 whenever the node has a first child with a nonempty
type label, or several children, or a grandchild under its first child —
but for a childless node the skeleton feature is the bare type label, so
it does not receive weight 5 for ordinary type labels (the weight is
classified by string shape, not by feature role). -/
theorem C3_feature_weights (node : ElementNode) :
    getWeight (getShapeSignature node) = 3 ∧
    getWeight ('d' :: natToChars (getMaxDepth node)) = 2 ∧
    getWeight ("interactive".data) = 1 ∧
    getWeight (getTypeCountSignature node) = 1 ∧
    (node.children = [] → getSkeletonSignature node = node.type) ∧
    (∀ c0 cs, node.children = c0 :: cs →
      (c0.type ≠ [] ∨ cs ≠ [] ∨ c0.children ≠ []) →
      getWeight (getSkeletonSignature node) = 5) :=
  ⟨getWeight_shape node, getWeight_depth _, by decide, getWeight_typeCount node,
    fun h => skeleton_childless h,
    fun c0 cs hch hne => skeleton_weight_five c0 cs hch hne⟩

/-- counterexample to C3 as stated: for the childless node `exButton` the
skeleton feature is the bare string `button`, which contains no `>`, so it
receives weight 1 rather than the claimed 5. -/
theorem C3_counterexample :
    getSkeletonSignature exButton = "button".data ∧
    getWeight (getSkeletonSignature exButton) = 1 ∧
    ¬getWeight (getSkeletonSignature exButton) = 5 :=
  ⟨by decide, by decide, by decide⟩

/-- witness for C3 (amended): the skeleton of `exList` (two `button`
children) has weight 5, and the skeleton of the childless `exButton` is
its bare type label. -/
theorem C3_feature_weights_witness :
    getWeight (getSkeletonSignature exList) = 5 ∧
    getSkeletonSignature exButton = exButton.type :=
  ⟨(C3_feature_weights exList).2.2.2.2.2 exButton [exButton] rfl (Or.inl (by decide)),
    (C3_feature_weights exButton).2.2.2.2.1 rfl⟩

end DOMSimHash

theorem isEmpty_eq_of_length_eq {α β : Type} {xs : List α} {ys : List β}
    (h : xs.length = ys.length) : xs.isEmpty = ys.isEmpty := by
  cases xs <;> cases ys <;> simp_all

namespace DOMSimHash

/-! ## Fingerprint structure-dependence: C10 -/

theorem sameShape_spec {a b : ElementNode} (h : sameShape a b = true) :
    a.type = b.type ∧
    containsSub a.line "[cursor=pointer]".data = containsSub b.line "[cursor=pointer]".data ∧
    sameShapeList a.children b.children = true := by
  cases a; cases b
  rw [sameShape] at h
  simp only [Bool.and_eq_true, beq_iff_eq] at h
  exact ⟨h.1.1, h.1.2, h.2⟩

theorem sameShapeList_forall₂ : ∀ {cs ds : List ElementNode}, sameShapeList cs ds = true →
    List.Forall₂ (fun c d => sameShape c d = true) cs ds := by
  intro cs
  induction cs with
  | nil =>
    intro ds h
    cases ds with
    | nil => exact List.Forall₂.nil
    | cons d ds => rw [sameShapeList] at h; exact Bool.noConfusion h
  | cons c cs ih =>
    intro ds h
    cases ds with
    | nil => rw [sameShapeList] at h; exact Bool.noConfusion h
    | cons d ds =>
      rw [sameShapeList, Bool.and_eq_true] at h
      exact List.Forall₂.cons h.1 (ih h.2)

theorem forall₂_take {R : ElementNode → ElementNode → Prop} :
    ∀ (n : Nat) {cs ds : List ElementNode}, List.Forall₂ R cs ds →
      List.Forall₂ R (cs.take n) (ds.take n) := by
  intro n cs ds h
  induction h generalizing n with
  | nil => simp
  | cons hcd htail ih =>
    cases n with
    | zero => simp
    | succ m => simpa using List.Forall₂.cons hcd (ih m)

theorem forall₂_types_eq {cs ds : List ElementNode}
    (h : List.Forall₂ (fun c d => sameShape c d = true) cs ds) :
    cs.map (·.type) = ds.map (·.type) := by
  induction h with
  | nil => rfl
  | cons hcd _ ih => simp [ih, (sameShape_spec hcd).1]

theorem forall₂_childLen_eq {cs ds : List ElementNode}
    (h : List.Forall₂ (fun c d => sameShape c d = true) cs ds) :
    cs.map (fun c => c.children.length) = ds.map (fun c => c.children.length) := by
  induction h with
  | nil => rfl
  | cons hcd _ ih =>
    have hlen := ((sameShapeList_forall₂ (sameShape_spec hcd).2.2).length_eq)
    simp [ih, hlen]

theorem skeleton_aux (t : List Char) : ∀ {cs ds : List ElementNode},
    List.Forall₂ (fun c d => sameShape c d = true) cs ds →
    (let childTypes := joinSep '+' ((cs.take 5).map (fun c : ElementNode => c.type))
     let signature := t ++ (if childTypes.isEmpty then [] else '>' :: childTypes)
     match cs with
     | [] => signature
     | c0 :: _ =>
       if c0.children.isEmpty then signature
       else signature ++ '>' :: joinSep '+' ((c0.children.take 3).map (fun c : ElementNode => c.type))) =
    (let childTypes := joinSep '+' ((ds.take 5).map (fun c : ElementNode => c.type))
     let signature := t ++ (if childTypes.isEmpty then [] else '>' :: childTypes)
     match ds with
     | [] => signature
     | d0 :: _ =>
       if d0.children.isEmpty then signature
       else signature ++ '>' :: joinSep '+' ((d0.children.take 3).map (fun c : ElementNode => c.type))) := by
  intro cs ds hf
  have htypes5 := forall₂_types_eq (forall₂_take 5 hf)
  cases hf with
  | nil => rfl
  | @cons c0 d0 cs' ds' hcd htail =>
    have hgrand := sameShapeList_forall₂ (sameShape_spec hcd).2.2
    have hgrandempty : c0.children.isEmpty = d0.children.isEmpty :=
      isEmpty_eq_of_length_eq hgrand.length_eq
    have hgrand3 : (c0.children.take 3).map (·.type) = (d0.children.take 3).map (·.type) :=
      forall₂_types_eq (forall₂_take 3 hgrand)
    simp only [] at htypes5 ⊢
    rw [htypes5, hgrandempty, hgrand3]

theorem getSkeletonSignature_eq {a b : ElementNode} (h : sameShape a b = true) :
    getSkeletonSignature a = getSkeletonSignature b := by
  obtain ⟨htype, _, hlist⟩ := sameShape_spec h
  have hf := sameShapeList_forall₂ hlist
  unfold getSkeletonSignature
  rw [htype]
  exact skeleton_aux b.type hf

theorem getShapeSignature_eq {a b : ElementNode} (h : sameShape a b = true) :
    getShapeSignature a = getShapeSignature b := by
  obtain ⟨_, _, hlist⟩ := sameShape_spec h
  have hf := sameShapeList_forall₂ hlist
  unfold getShapeSignature
  rw [hf.length_eq, forall₂_childLen_eq (forall₂_take 3 hf)]

theorem countTypes_eq : ∀ (fuel : Nat) {a b : ElementNode}, sameShape a b = true →
    countTypes fuel a = countTypes fuel b := by
  intro fuel
  induction fuel with
  | zero => intro a b _; rfl
  | succ fuel ih =>
    intro a b h
    obtain ⟨htype, _, hlist⟩ := sameShape_spec h
    have hmap : ∀ {cs ds : List ElementNode},
        List.Forall₂ (fun c d => sameShape c d = true) cs ds →
        cs.map (countTypes fuel) = ds.map (countTypes fuel) := by
      intro cs ds hf
      induction hf with
      | nil => rfl
      | cons hcd _ ihf => simp [ihf, ih hcd]
    rw [countTypes, countTypes, htype, hmap (sameShapeList_forall₂ hlist)]

theorem interactiveCheck_eq : ∀ (fuel : Nat) {a b : ElementNode}, sameShape a b = true →
    interactiveCheck fuel a = interactiveCheck fuel b := by
  intro fuel
  induction fuel with
  | zero => intro a b _; rfl
  | succ fuel ih =>
    intro a b h
    obtain ⟨htype, _, hlist⟩ := sameShape_spec h
    have hany : ∀ {cs ds : List ElementNode},
        List.Forall₂ (fun c d => sameShape c d = true) cs ds →
        cs.any (interactiveCheck fuel) = ds.any (interactiveCheck fuel) := by
      intro cs ds hf
      induction hf with
      | nil => rfl
      | cons hcd _ ihf => simp [List.any_cons, ihf, ih hcd]
    rw [interactiveCheck, interactiveCheck, htype, hany (sameShapeList_forall₂ hlist)]

theorem hasInteractiveElements_eq {a b : ElementNode} (h : sameShape a b = true) :
    hasInteractiveElements a = hasInteractiveElements b := by
  obtain ⟨_, hline, _⟩ := sameShape_spec h
  unfold hasInteractiveElements
  rw [hline, interactiveCheck_eq 3 h]

mutual
theorem sameShape_getMaxDepth : ∀ (a b : ElementNode), sameShape a b = true →
    getMaxDepth a = getMaxDepth b
  | .mk _ t1 r1 c1 l1 cs1 p1 i1 n1 d1, .mk _ t2 r2 c2 l2 cs2 p2 i2 n2 d2, h => by
    rw [sameShape] at h
    simp only [Bool.and_eq_true, beq_iff_eq] at h
    have hlist := h.2
    have hempty : cs1.isEmpty = cs2.isEmpty :=
      isEmpty_eq_of_length_eq (sameShapeList_forall₂ hlist).length_eq
    rw [getMaxDepth, getMaxDepth, hempty, sameShapeList_maxDepthList cs1 cs2 hlist]

theorem sameShapeList_maxDepthList : ∀ (cs ds : List ElementNode), sameShapeList cs ds = true →
    maxDepthList cs = maxDepthList ds
  | [], [], _ => rfl
  | [], _ :: _, h => by rw [sameShapeList] at h; exact Bool.noConfusion h
  | _ :: _, [], h => by rw [sameShapeList] at h; exact Bool.noConfusion h
  | c :: cs, d :: ds, h => by
    rw [sameShapeList, Bool.and_eq_true] at h
    rw [maxDepthList, maxDepthList, sameShape_getMaxDepth c d h.1,
      sameShapeList_maxDepthList cs ds h.2]
end

theorem extractFeatures_eq {a b : ElementNode} (h : sameShape a b = true) :
    extractFeatures a = extractFeatures b := by
  unfold extractFeatures
  rw [getSkeletonSignature_eq h, getShapeSignature_eq h, hasInteractiveElements_eq h,
    sameShape_getMaxDepth a b h]
  unfold getTypeCountSignature
  rw [countTypes_eq 3 h]

/-- C10: two nodes whose subtrees agree on all type labels, on child-list
structure, and on the presence of the `[cursor=pointer]` marker on each
line receive equal fingerprints, whatever their content, reference tokens,
line numbers and remaining line text: `computeHashPure` factors through
the structural shape captured by `sameShape`. -/
theorem C10_fingerprint_shape_only :
    ∀ a b : ElementNode, sameShape a b = true → computeHashPure a = computeHashPure b := by
  intro a b h
  unfold computeHashPure
  rw [extractFeatures_eq h]

/-- witness for C10: `exButton` and `exButton2` differ in content,
reference token, line text, line number, priority and identity, yet agree
structurally and receive equal fingerprints. -/
theorem C10_fingerprint_shape_only_witness :
    sameShape exButton exButton2 = true ∧
    computeHashPure exButton = computeHashPure exButton2 :=
  ⟨by decide, C10_fingerprint_shape_only exButton exButton2 (by decide)⟩

end DOMSimHash

namespace DOMSimHash

/-! ## Run detection: the sliding-search invariant (C2) -/

theorem innerScan_nil (base i j simCount : Nat) (st : ScanState) :
    innerScan base i [] j simCount st = st := rfl

theorem innerScan_no_update (base i : Nat) : ∀ (rest : List Nat) (j simCount : Nat)
    (st : ScanState), simCount + rest.length ≤ st.maxLen →
    innerScan base i rest j simCount st = st := by
  intro rest
  induction rest with
  | nil => intro j simCount st _; rfl
  | cons h t ih =>
    intro j simCount st hle
    rw [innerScan]
    simp only [List.length_cons] at hle
    simp only []
    by_cases hd : hammingDistance base h ≤ 3
    · rw [if_pos hd]
      have hcond : ¬(3 ≤ simCount + 1 ∧ st.maxLen < simCount + 1) := by omega
      rw [if_neg hcond]
      exact ih (j + 1) (simCount + 1) st (by omega)
    · rw [if_neg hd]
      by_cases h3 : 3 ≤ simCount
      · rw [if_pos h3]
      · rw [if_neg h3]
        exact ih (j + 1) simCount st (by omega)

theorem getD_drop_eq {hs : List Nat} {j : Nat} {h : Nat} {t : List Nat}
    (hdrop : hs.drop j = h :: t) : hs.getD j 0 = h ∧ hs.drop (j + 1) = t ∧ j < hs.length := by
  have hlt : j < hs.length := by
    by_contra hge
    rw [List.drop_eq_nil_of_le (by omega)] at hdrop
    exact List.noConfusion hdrop
  have h1 : hs[j]? = some h := by
    rw [← List.head?_drop, hdrop, List.head?_cons]
  refine ⟨?_, ?_, hlt⟩
  · rw [List.getD_eq_getElem?_getD, h1]
    rfl
  · rw [← List.tail_drop, hdrop, List.tail_cons]

theorem innerScan_inv (hs : List Nat) (i : Nat) : ∀ (rest : List Nat) (j simCount : Nat)
    (st : ScanState), rest = hs.drop j → i < j → simCount ≤ j - i → ScanInv hs st →
    ScanInv hs (innerScan (hs.getD i 0) i rest j simCount st) := by
  intro rest
  induction rest with
  | nil => intro j simCount st _ _ _ hinv; exact hinv
  | cons h t ih =>
    intro j simCount st hdrop hij hsc hinv
    obtain ⟨hj, ht, hjlt⟩ := getD_drop_eq hdrop.symm
    rw [innerScan]
    simp only []
    by_cases hd : hammingDistance (hs.getD i 0) h ≤ 3
    · rw [if_pos hd]
      have hst' : ScanInv hs (if 3 ≤ simCount + 1 ∧ st.maxLen < simCount + 1 then
          (⟨simCount + 1, i, j, hs.getD i 0⟩ : ScanState) else st) := by
        split
        · next hrec =>
          intro _
          refine ⟨?_, hjlt, rfl, ?_⟩
          · show i + 2 ≤ j
            omega
          · show hammingDistance (hs.getD i 0) (hs.getD j 0) ≤ 3
            rw [hj]
            exact hd
        · exact hinv
      exact ih (j + 1) (simCount + 1) _ ht.symm (by omega) (by omega) hst'
    · rw [if_neg hd]
      by_cases h3 : 3 ≤ simCount
      · rw [if_pos h3]
        exact hinv
      · rw [if_neg h3]
        exact ih (j + 1) simCount st ht.symm (by omega) (by omega) hinv

theorem outerScan_inv (hs : List Nat) : ∀ (remaining : List Nat) (i : Nat) (st : ScanState),
    remaining = hs.drop i → ScanInv hs st → ScanInv hs (outerScan remaining i st) := by
  intro remaining
  induction remaining with
  | nil => intro i st _ hinv; exact hinv
  | cons base rest ih =>
    intro i st hdrop hinv
    obtain ⟨hi, ht, hilt⟩ := getD_drop_eq hdrop.symm
    rw [outerScan]
    by_cases hlen : 2 ≤ rest.length
    · rw [if_pos hlen]
      refine ih (i + 1) _ ht.symm ?_
      rw [← hi]
      exact innerScan_inv hs i rest (i + 1) 1 st ht.symm (by omega) (by omega) hinv
    · rw [if_neg hlen]
      exact hinv

theorem findSimilarSequenceH_some {hs : List Nat} {r : ScanResult}
    (h : findSimilarSequenceH hs = some r) :
    r.start + 2 ≤ r.endIdx ∧ r.endIdx < hs.length ∧
    r.baseHash = hs.getD r.start 0 ∧
    hammingDistance (hs.getD r.start 0) (hs.getD r.endIdx 0) ≤ 3 := by
  unfold findSimilarSequenceH at h
  split at h
  · exact Option.noConfusion h
  · have hinv : ScanInv hs (outerScan hs 0 ⟨0, 0, 0, 0⟩) := by
      refine outerScan_inv hs hs 0 _ (by simp) ?_
      intro habs
      exact absurd habs (by decide)
    have h2 : (if 3 ≤ (outerScan hs 0 ⟨0, 0, 0, 0⟩).maxLen then
        some (⟨(outerScan hs 0 ⟨0, 0, 0, 0⟩).bestStart, (outerScan hs 0 ⟨0, 0, 0, 0⟩).bestEnd,
          (outerScan hs 0 ⟨0, 0, 0, 0⟩).bestBaseHash⟩ : ScanResult) else none) = some r := h
    clear h
    split at h2
    · next hmax =>
      obtain ⟨g1, g2, g3, g4⟩ := hinv hmax
      cases h2
      exact ⟨g1, g2, g3, g4⟩
    · exact Option.noConfusion h2

theorem getD_map_hash {l : List ElementNode} : ∀ {k : Nat}, k < l.length →
    (l.map computeHashPure).getD k 0 = computeHashPure (l.getD k default) := by
  induction l with
  | nil => intro k hk; simp at hk
  | cons a as ih =>
    intro k hk
    cases k with
    | zero => rfl
    | succ m =>
      simp only [List.length_cons, Nat.succ_lt_succ_iff] at hk
      simp only [List.map_cons, List.getD_cons_succ]
      exact ih hk

theorem findSimilarSequence_some :
    ∀ (nodes : List ElementNode) (s : FoundSeq), findSimilarSequence nodes = some s →
      s.start + 2 ≤ s.endIdx ∧ s.endIdx < nodes.length ∧
      s.baseHash = computeHashPure (nodes.getD s.start default) ∧
      hammingDistance (computeHashPure (nodes.getD s.start default))
        (computeHashPure (nodes.getD s.endIdx default)) ≤ 3 := by
  intro nodes s h
  unfold findSimilarSequence at h
  cases hr : findSimilarSequenceH (nodes.map computeHashPure) with
  | none => rw [hr] at h; exact Option.noConfusion h
  | some r =>
    rw [hr] at h
    obtain ⟨h1, h2, h3, h4⟩ := findSimilarSequenceH_some hr
    rw [List.length_map] at h2
    cases h
    refine ⟨h1, h2, ?_, ?_⟩
    · show r.baseHash = computeHashPure (nodes.getD r.start default)
      rw [h3]
      exact getD_map_hash (by omega)
    · show hammingDistance (computeHashPure (nodes.getD r.start default))
        (computeHashPure (nodes.getD r.endIdx default)) ≤ 3
      rw [← getD_map_hash (l := nodes) (by omega), ← getD_map_hash (l := nodes) h2]
      exact h4

/-- C2 (amended): whenever `findSimilarSequence` returns a range, the range
lies inside the node list with `start + 2 ≤ end`, the recorded base hash is
the fingerprint of the node at `start` (the anchor), and the node at `end`
is within Hamming distance 3 of the anchor.  Interior nodes of the range
need not be within distance 3 of the anchor: a dissimilar node encountered
while the window holds fewer than 3 similar nodes is passed over with the
window kept open (scanning does not resume at the next anchor), so the
reported range can enclose it. -/
theorem C2_findSimilarSequence_range :
    ∀ (nodes : List ElementNode) (s : FoundSeq), findSimilarSequence nodes = some s →
      s.start + 2 ≤ s.endIdx ∧ s.endIdx < nodes.length ∧
      s.baseHash = computeHashPure (nodes.getD s.start default) ∧
      hammingDistance (computeHashPure (nodes.getD s.start default))
        (computeHashPure (nodes.getD s.endIdx default)) ≤ 3 :=
  findSimilarSequence_some

/-- counterexample to C2 as stated: on `[exButton, exList, exButton,
exButton]` the sliding search reports the range `[0, 3]`, although the node
at index 1, inside the reported range, is at Hamming distance 9 (> 3) from
the anchor at index 0 — the window was not abandoned when the dissimilar
node was met before the run reached length 3. -/
theorem C2_counterexample :
    ((findSimilarSequence [exButton, exList, exButton, exButton]).map
      (fun s => (s.start, s.endIdx))) = some (0, 3) ∧
    ¬hammingDistance
        (computeHashPure (([exButton, exList, exButton, exButton] : List ElementNode).getD 0 default))
        (computeHashPure (([exButton, exList, exButton, exButton] : List ElementNode).getD 1 default)) ≤ 3 :=
  ⟨by decide, by decide⟩

/-- witness for C2 (amended), at the same concrete list: the reported
range `[0, 3]` satisfies the amended guarantees. -/
theorem C2_findSimilarSequence_range_witness :
    (0 : Nat) + 2 ≤ 3 ∧
    (3 : Nat) < ([exButton, exList, exButton, exButton] : List ElementNode).length ∧
    computeHashPure exButton =
      computeHashPure (([exButton, exList, exButton, exButton] : List ElementNode).getD 0 default) ∧
    hammingDistance
      (computeHashPure (([exButton, exList, exButton, exButton] : List ElementNode).getD 0 default))
      (computeHashPure (([exButton, exList, exButton, exButton] : List ElementNode).getD 3 default)) ≤ 3 :=
  C2_findSimilarSequence_range [exButton, exList, exButton, exButton]
    ⟨0, 3, [exButton, exList, exButton, exButton], computeHashPure exButton⟩ (by rfl)

/-! ## The batch loop of `findAllSimilarSequences`: C1, C4, C5 -/

theorem mem_filter_range {n : Nat} {p : Finset ℕ} {x : Nat}
    (h : x ∈ (List.range n).filter (fun i => i ∉ p)) : x < n ∧ x ∉ p := by
  rw [List.mem_filter] at h
  exact ⟨List.mem_range.1 h.1, by simpa using h.2⟩

theorem claimedNow_facts {im : List ℕ} {seq : FoundSeq} {nodes : List ElementNode}
    (hnodup : im.Nodup)
    (hseq : findSimilarSequence (im.map (fun i => nodes.getD i default)) = some seq) :
    ((List.range' seq.start (seq.endIdx + 1 - seq.start)).map (fun k => im.getD k 0)).Nodup ∧
    ((List.range' seq.start (seq.endIdx + 1 - seq.start)).map (fun k => im.getD k 0)).length =
      seq.endIdx + 1 - seq.start ∧
    3 ≤ seq.endIdx + 1 - seq.start ∧
    ∀ x ∈ (List.range' seq.start (seq.endIdx + 1 - seq.start)).map (fun k => im.getD k 0),
      x ∈ im := by
  obtain ⟨hse, helt, -, -⟩ := findSimilarSequence_some _ _ hseq
  rw [List.length_map] at helt
  refine ⟨?_, ?_, by omega, ?_⟩
  · refine List.Nodup.map_on ?_ (List.nodup_range' _ _ 1 (by norm_num))
    intro x hx y hy heq
    rw [List.mem_range'_1] at hx hy
    have hxl : x < im.length := by omega
    have hyl : y < im.length := by omega
    rw [List.getD_eq_getElem _ _ hxl, List.getD_eq_getElem _ _ hyl] at heq
    exact (List.Nodup.getElem_inj_iff hnodup).1 heq
  · rw [List.length_map, List.length_range']
  · intro x hx
    rcases List.mem_map.1 hx with ⟨k, hk, rfl⟩
    rw [List.mem_range'_1] at hk
    have hkl : k < im.length := by omega
    rw [List.getD_eq_getElem _ _ hkl]
    exact im.getElem_mem hkl

theorem findAllLoop_claimed_facts (nodes : List ElementNode) :
    ∀ (fuel : Nat) (processed : Finset ℕ),
    ∀ c ∈ (findAllLoop nodes fuel processed).claimed,
      c.Nodup ∧ 3 ≤ c.length ∧ ∀ x ∈ c, x ∉ processed ∧ x < nodes.length := by
  intro fuel
  induction fuel with
  | zero => intro processed c hc; simp [findAllLoop] at hc
  | succ fuel ih =>
    intro processed c hc
    rw [findAllLoop] at hc
    simp only [] at hc
    by_cases hcard : processed.card < nodes.length
    · rw [if_pos hcard] at hc
      by_cases hlen : (((List.range nodes.length).filter (fun i => i ∉ processed)).map
          (fun i => nodes.getD i default)).length < 3
      · rw [if_pos hlen] at hc
        simp at hc
      · rw [if_neg hlen] at hc
        cases hseq : findSimilarSequence
            (((List.range nodes.length).filter (fun i => i ∉ processed)).map
              (fun i => nodes.getD i default)) with
        | none => rw [hseq] at hc; simp at hc
        | some seq =>
          rw [hseq] at hc
          simp only [] at hc
          obtain ⟨hcn, hclen, hc3, hcmem⟩ :=
            claimedNow_facts ((List.nodup_range nodes.length).filter _) hseq
          rcases List.mem_cons.1 hc with rfl | hrest
          · refine ⟨hcn, by omega, ?_⟩
            intro x hx
            have := mem_filter_range (hcmem x hx)
            exact ⟨this.2, this.1⟩
          · obtain ⟨hn, h3, hmem⟩ := ih _ c hrest
            refine ⟨hn, h3, ?_⟩
            intro x hx
            obtain ⟨hnp, hlt⟩ := hmem x hx
            refine ⟨fun hxp => hnp ?_, hlt⟩
            exact Finset.mem_union_left _ hxp
    · rw [if_neg hcard] at hc
      simp at hc

theorem findAllLoop_claimed_pairwise (nodes : List ElementNode) :
    ∀ (fuel : Nat) (processed : Finset ℕ),
    List.Pairwise (fun c₁ c₂ => ∀ x ∈ c₁, x ∉ c₂) (findAllLoop nodes fuel processed).claimed := by
  intro fuel
  induction fuel with
  | zero => intro processed; simp [findAllLoop]
  | succ fuel ih =>
    intro processed
    rw [findAllLoop]
    simp only []
    by_cases hcard : processed.card < nodes.length
    · rw [if_pos hcard]
      by_cases hlen : (((List.range nodes.length).filter (fun i => i ∉ processed)).map
          (fun i => nodes.getD i default)).length < 3
      · rw [if_pos hlen]
        simp
      · rw [if_neg hlen]
        cases hseq : findSimilarSequence
            (((List.range nodes.length).filter (fun i => i ∉ processed)).map
              (fun i => nodes.getD i default)) with
        | none => simp
        | some seq =>
          simp only []
          refine List.Pairwise.cons ?_ (ih _)
          intro c₂ hc₂ x hx hxc₂
          have hxp' : x ∈ processed ∪ ((List.range' seq.start (seq.endIdx + 1 - seq.start)).map
              (fun k => (((List.range nodes.length).filter (fun i => i ∉ processed))).getD k 0)).toFinset :=
            Finset.mem_union_right _ (List.mem_toFinset.2 hx)
          obtain ⟨-, -, hmem⟩ := findAllLoop_claimed_facts nodes fuel _ c₂ hc₂
          exact (hmem x hxc₂).1 hxp'
    · rw [if_neg hcard]
      simp

theorem findAllLoop_counts (nodes : List ElementNode) :
    ∀ (fuel : Nat) (processed : Finset ℕ),
    (findAllLoop nodes fuel processed).sequences.map (fun s => s.count) =
      (findAllLoop nodes fuel processed).claimed.map List.length := by
  intro fuel
  induction fuel with
  | zero => intro processed; rfl
  | succ fuel ih =>
    intro processed
    rw [findAllLoop]
    simp only []
    by_cases hcard : processed.card < nodes.length
    · rw [if_pos hcard]
      by_cases hlen : (((List.range nodes.length).filter (fun i => i ∉ processed)).map
          (fun i => nodes.getD i default)).length < 3
      · rw [if_pos hlen]
        rfl
      · rw [if_neg hlen]
        cases hseq : findSimilarSequence
            (((List.range nodes.length).filter (fun i => i ∉ processed)).map
              (fun i => nodes.getD i default)) with
        | none => rfl
        | some seq =>
          simp only [List.map_cons]
          obtain ⟨-, hclen, -, -⟩ :=
            claimedNow_facts ((List.nodup_range nodes.length).filter _) hseq
          obtain ⟨hse, -, -, -⟩ := findSimilarSequence_some _ _ hseq
          rw [ih, hclen]
          congr 1
          omega
    · rw [if_neg hcard]
      rfl

theorem findAllLoop_iterations_le (nodes : List ElementNode) :
    ∀ (fuel : Nat) (processed : Finset ℕ), processed ⊆ Finset.range nodes.length →
    3 * (findAllLoop nodes fuel processed).iterations + processed.card ≤ nodes.length + 2 := by
  intro fuel
  induction fuel with
  | zero =>
    intro processed hsub
    have := Finset.card_le_card hsub
    rw [Finset.card_range] at this
    simpa [findAllLoop] using by omega
  | succ fuel ih =>
    intro processed hsub
    have hcardle : processed.card ≤ nodes.length := by
      have := Finset.card_le_card hsub
      rwa [Finset.card_range] at this
    rw [findAllLoop]
    simp only []
    by_cases hcard : processed.card < nodes.length
    · rw [if_pos hcard]
      by_cases hlen : (((List.range nodes.length).filter (fun i => i ∉ processed)).map
          (fun i => nodes.getD i default)).length < 3
      · rw [if_pos hlen]
        show 3 * 1 + processed.card ≤ nodes.length + 2
        omega
      · rw [if_neg hlen]
        cases hseq : findSimilarSequence
            (((List.range nodes.length).filter (fun i => i ∉ processed)).map
              (fun i => nodes.getD i default)) with
        | none =>
          show 3 * 1 + processed.card ≤ nodes.length + 2
          omega
        | some seq =>
          simp only []
          obtain ⟨hcn, hclen, hc3, hcmem⟩ :=
            claimedNow_facts ((List.nodup_range nodes.length).filter _) hseq
          set claimedNow := (List.range' seq.start (seq.endIdx + 1 - seq.start)).map
            (fun k => (((List.range nodes.length).filter (fun i => i ∉ processed))).getD k 0)
            with hclaimed
          have hdisj : Disjoint processed claimedNow.toFinset := by
            rw [Finset.disjoint_right]
            intro x hxc
            exact (mem_filter_range (hcmem x (List.mem_toFinset.1 hxc))).2
          have hsub' : processed ∪ claimedNow.toFinset ⊆ Finset.range nodes.length := by
            rw [Finset.union_subset_iff]
            refine ⟨hsub, ?_⟩
            intro x hxc
            rw [Finset.mem_range]
            exact (mem_filter_range (hcmem x (List.mem_toFinset.1 hxc))).1
          have hcard' : (processed ∪ claimedNow.toFinset).card =
              processed.card + claimedNow.length :=
            (Finset.card_union_of_disjoint hdisj).trans
              (by rw [List.toFinset_card_of_nodup hcn])
          have hrec := ih (processed ∪ claimedNow.toFinset) hsub'
          show 3 * ((findAllLoop nodes fuel (processed ∪ claimedNow.toFinset)).iterations + 1) +
            processed.card ≤ nodes.length + 2
          omega
    · rw [if_neg hcard]
      show 3 * 0 + processed.card ≤ nodes.length + 2
      omega

theorem findAllLoop_fuel_stable (nodes : List ElementNode) :
    ∀ (fuel : Nat) (processed : Finset ℕ), processed ⊆ Finset.range nodes.length →
    nodes.length ≤ processed.card + 3 * fuel →
    findAllLoop nodes fuel processed = findAllLoop nodes (fuel + 1) processed := by
  intro fuel
  induction fuel with
  | zero =>
    intro processed hsub hn
    have hnotlt : ¬processed.card < nodes.length := by omega
    rw [findAllLoop, findAllLoop]
    simp only []
    rw [if_neg hnotlt]
  | succ fuel ih =>
    intro processed hsub hn
    conv_lhs => rw [findAllLoop]
    conv_rhs => rw [findAllLoop]
    simp only []
    by_cases hcard : processed.card < nodes.length
    · rw [if_pos hcard, if_pos hcard]
      by_cases hlen : (((List.range nodes.length).filter (fun i => i ∉ processed)).map
          (fun i => nodes.getD i default)).length < 3
      · rw [if_pos hlen, if_pos hlen]
      · rw [if_neg hlen, if_neg hlen]
        cases hseq : findSimilarSequence
            (((List.range nodes.length).filter (fun i => i ∉ processed)).map
              (fun i => nodes.getD i default)) with
        | none => rfl
        | some seq =>
          simp only []
          obtain ⟨hcn, hclen, hc3, hcmem⟩ :=
            claimedNow_facts ((List.nodup_range nodes.length).filter _) hseq
          set claimedNow := (List.range' seq.start (seq.endIdx + 1 - seq.start)).map
            (fun k => (((List.range nodes.length).filter (fun i => i ∉ processed))).getD k 0)
            with hclaimed
          have hdisj : Disjoint processed claimedNow.toFinset := by
            rw [Finset.disjoint_right]
            intro x hxc
            exact (mem_filter_range (hcmem x (List.mem_toFinset.1 hxc))).2
          have hsub' : processed ∪ claimedNow.toFinset ⊆ Finset.range nodes.length := by
            rw [Finset.union_subset_iff]
            refine ⟨hsub, ?_⟩
            intro x hxc
            rw [Finset.mem_range]
            exact (mem_filter_range (hcmem x (List.mem_toFinset.1 hxc))).1
          have hcard' : (processed ∪ claimedNow.toFinset).card =
              processed.card + claimedNow.length :=
            (Finset.card_union_of_disjoint hdisj).trans
              (by rw [List.toFinset_card_of_nodup hcn])
          rw [ih (processed ∪ claimedNow.toFinset) hsub' (by omega)]
    · rw [if_neg hcard, if_neg hcard]

theorem findAllLoop_fuel_add (nodes : List ElementNode) :
    ∀ (k fuel : Nat) (processed : Finset ℕ), processed ⊆ Finset.range nodes.length →
    nodes.length ≤ processed.card + 3 * fuel →
    findAllLoop nodes (fuel + k) processed = findAllLoop nodes fuel processed := by
  intro k
  induction k with
  | zero => intro fuel processed _ _; rfl
  | succ k ihk =>
    intro fuel processed hsub hn
    have h1 : findAllLoop nodes (fuel + k) processed = findAllLoop nodes fuel processed :=
      ihk fuel processed hsub hn
    have h2 : findAllLoop nodes (fuel + k) processed =
        findAllLoop nodes (fuel + k + 1) processed :=
      findAllLoop_fuel_stable nodes (fuel + k) processed hsub (by omega)
    rw [show fuel + (k + 1) = fuel + k + 1 from rfl, ← h2, h1]

/-- C4: every run returned by `findAllSimilarSequences` claims at least 3
member indices — its `count` field is at least 3 and equals the number of
distinct original indices the run marks processed — the marked index sets
contain no duplicates, and the sets claimed by distinct runs are pairwise
disjoint: no node index is claimed by two runs. -/
theorem C4_findAll_counts_disjoint (nodes : List ElementNode) :
    (∀ s ∈ findAllSimilarSequences nodes, 3 ≤ s.count) ∧
    (findAllSimilarSequences nodes).map (fun s => s.count) =
      (findAllClaimed nodes).map List.length ∧
    (∀ c ∈ findAllClaimed nodes, c.Nodup) ∧
    List.Pairwise (fun c₁ c₂ => ∀ x ∈ c₁, x ∉ c₂) (findAllClaimed nodes) := by
  have hcounts := findAllLoop_counts nodes nodes.length ∅
  have hfacts := findAllLoop_claimed_facts nodes nodes.length ∅
  have hpair := findAllLoop_claimed_pairwise nodes nodes.length ∅
  refine ⟨?_, hcounts, fun c hc => (hfacts c hc).1, hpair⟩
  intro s hs
  have hmem : s.count ∈ (findAllSimilarSequences nodes).map (fun s => s.count) :=
    List.mem_map_of_mem _ hs
  rw [show (findAllSimilarSequences nodes).map (fun s => s.count) =
    (findAllClaimed nodes).map List.length from hcounts] at hmem
  rcases List.mem_map.1 hmem with ⟨c, hc, hlen⟩
  have h3 := (hfacts c hc).2.1
  omega

/-- witness for C4: on the seven-node list below the single returned run
has `count = 6 ≥ 3`. -/
theorem C4_findAll_counts_disjoint_witness :
    3 ≤ (SeqRecord.mk 1 6 6 exButton).count :=
  (C4_findAll_counts_disjoint
      [exButton, exButton, exButton, exList, exButton, exButton, exButton]).1
    ⟨1, 6, 6, exButton⟩
    (by rw [show findAllSimilarSequences
          [exButton, exButton, exButton, exList, exButton, exButton, exButton] =
          [⟨1, 6, 6, exButton⟩] from rfl]
        exact List.mem_cons_self _ _)

/-- C5: `findAllSimilarSequences` terminates after at most ⌈N/3⌉ `while`
iterations over N siblings: the iteration counter is bounded by
`(N + 2) / 3 = ⌈N/3⌉`, and fuel `⌈N/3⌉` already yields the same result as
the fuel `N` used by the definition — each iteration either claims at
least 3 previously unclaimed indices or is the final one. -/
theorem C5_findAll_iterations_bound (nodes : List ElementNode) :
    findAllIterations nodes ≤ (nodes.length + 2) / 3 ∧
    findAllLoop nodes ((nodes.length + 2) / 3) ∅ = findAllLoop nodes nodes.length ∅ := by
  constructor
  · have h := findAllLoop_iterations_le nodes nodes.length ∅ (by simp)
    rw [Finset.card_empty] at h
    unfold findAllIterations
    rw [Nat.le_div_iff_mul_le (by norm_num)]
    omega
  · set t := (nodes.length + 2) / 3 with ht
    have h3t : nodes.length ≤ 3 * t := by omega
    have hle : t ≤ nodes.length := by omega
    have h := findAllLoop_fuel_add nodes (nodes.length - t) t ∅ (by simp)
      (by rw [Finset.card_empty]; omega)
    rw [show t + (nodes.length - t) = nodes.length from by omega] at h
    exact h.symm

theorem sevenScan (g0 g1 g2 g3 g4 g5 g6 : Nat)
    (h01 : hammingDistance g0 g1 ≤ 3) (h02 : hammingDistance g0 g2 ≤ 3)
    (h12 : hammingDistance g1 g2 ≤ 3)
    (h03 : ¬hammingDistance g0 g3 ≤ 3) (h13 : ¬hammingDistance g1 g3 ≤ 3)
    (h23 : ¬hammingDistance g2 g3 ≤ 3)
    (h14 : hammingDistance g1 g4 ≤ 3) (h15 : hammingDistance g1 g5 ≤ 3)
    (h16 : hammingDistance g1 g6 ≤ 3) :
    findSimilarSequenceH [g0, g1, g2, g3, g4, g5, g6] = some ⟨1, 6, g1⟩ := by
  have e0 : innerScan g0 0 [g1, g2, g3, g4, g5, g6] (0 + 1) 1 ⟨0, 0, 0, 0⟩ = ⟨3, 0 + 1 + 1 - 2, 0 + 1 + 1, g0⟩ := by
    rw [innerScan, if_pos h01]
    simp only []
    rw [if_neg (by decide)]
    rw [innerScan, if_pos h02]
    simp only []
    rw [if_pos (by decide)]
    rw [innerScan, if_neg h03, if_pos (by decide)]
  have e1 : innerScan g1 (0 + 1) [g2, g3, g4, g5, g6] (0 + 1 + 1) 1 ⟨3, 0 + 1 + 1 - 2, 0 + 1 + 1, g0⟩ =
      ⟨5, 0 + 1, 0 + 1 + 1 + 1 + 1 + 1 + 1, g1⟩ := by
    rw [innerScan, if_pos h12]
    simp only []
    rw [if_neg (by decide)]
    rw [innerScan, if_neg h13, if_neg (by decide)]
    rw [innerScan, if_pos h14]
    simp only []
    rw [if_neg (by decide)]
    rw [innerScan, if_pos h15]
    simp only []
    rw [if_pos (by decide)]
    rw [innerScan, if_pos h16]
    simp only []
    rw [if_pos (by decide)]
    rfl
  have o : outerScan [g0, g1, g2, g3, g4, g5, g6] 0 ⟨0, 0, 0, 0⟩ = ⟨5, 1, 6, g1⟩ := by
    rw [outerScan, if_pos (by norm_num)]
    rw [e0]
    rw [outerScan, if_pos (by norm_num)]
    rw [e1]
    rw [outerScan, if_pos (by norm_num)]
    rw [show innerScan g2 (0 + 1 + 1) [g3, g4, g5, g6] (0 + 1 + 1 + 1) 1
        (⟨5, 0 + 1, 0 + 1 + 1 + 1 + 1 + 1 + 1, g1⟩ : ScanState) =
        ⟨5, 0 + 1, 0 + 1 + 1 + 1 + 1 + 1 + 1, g1⟩ from
      innerScan_no_update _ _ _ _ _ _ (by norm_num)]
    rw [outerScan, if_pos (by norm_num)]
    rw [show innerScan g3 (0 + 1 + 1 + 1) [g4, g5, g6] (0 + 1 + 1 + 1 + 1) 1
        (⟨5, 0 + 1, 0 + 1 + 1 + 1 + 1 + 1 + 1, g1⟩ : ScanState) =
        ⟨5, 0 + 1, 0 + 1 + 1 + 1 + 1 + 1 + 1, g1⟩ from
      innerScan_no_update _ _ _ _ _ _ (by norm_num)]
    rw [outerScan, if_pos (by norm_num)]
    rw [show innerScan g4 (0 + 1 + 1 + 1 + 1) [g5, g6] (0 + 1 + 1 + 1 + 1 + 1) 1
        (⟨5, 0 + 1, 0 + 1 + 1 + 1 + 1 + 1 + 1, g1⟩ : ScanState) =
        ⟨5, 0 + 1, 0 + 1 + 1 + 1 + 1 + 1 + 1, g1⟩ from
      innerScan_no_update _ _ _ _ _ _ (by norm_num)]
    rw [outerScan, if_neg (by norm_num)]
  unfold findSimilarSequenceH
  rw [if_neg (by norm_num)]
  simp only []
  rw [o]
  rw [if_pos (by norm_num)]

theorem findAllLoop_succ_eq_some (nodes : List ElementNode) (fuel : Nat) (processed : Finset ℕ)
    (seq : FoundSeq)
    (hcard : processed.card < nodes.length)
    (hlen : ¬((((List.range nodes.length).filter (fun i => i ∉ processed)).map
        (fun i => nodes.getD i default)).length < 3))
    (hseq : findSimilarSequence (((List.range nodes.length).filter (fun i => i ∉ processed)).map
        (fun i => nodes.getD i default)) = some seq) :
    findAllLoop nodes (fuel + 1) processed =
      ⟨⟨((List.range nodes.length).filter (fun i => i ∉ processed)).getD seq.start 0,
         ((List.range nodes.length).filter (fun i => i ∉ processed)).getD seq.endIdx 0,
         seq.endIdx - seq.start + 1,
         nodes.getD (((List.range nodes.length).filter (fun i => i ∉ processed)).getD seq.start 0)
           default⟩ ::
        (findAllLoop nodes fuel (processed ∪
          ((List.range' seq.start (seq.endIdx + 1 - seq.start)).map
            (fun k => ((List.range nodes.length).filter (fun i => i ∉ processed)).getD k 0)).toFinset)).sequences,
       ((List.range' seq.start (seq.endIdx + 1 - seq.start)).map
          (fun k => ((List.range nodes.length).filter (fun i => i ∉ processed)).getD k 0)) ::
        (findAllLoop nodes fuel (processed ∪
          ((List.range' seq.start (seq.endIdx + 1 - seq.start)).map
            (fun k => ((List.range nodes.length).filter (fun i => i ∉ processed)).getD k 0)).toFinset)).claimed,
       (findAllLoop nodes fuel (processed ∪
          ((List.range' seq.start (seq.endIdx + 1 - seq.start)).map
            (fun k => ((List.range nodes.length).filter (fun i => i ∉ processed)).getD k 0)).toFinset)).iterations + 1⟩ := by
  rw [findAllLoop]
  simp only []
  rw [if_pos hcard, if_neg hlen, hseq]

theorem findAllLoop_pos_eq_small (nodes : List ElementNode) (fuel : Nat) (processed : Finset ℕ)
    (hf : 0 < fuel)
    (hcard : processed.card < nodes.length)
    (hlen : (((List.range nodes.length).filter (fun i => i ∉ processed)).map
        (fun i => nodes.getD i default)).length < 3) :
    findAllLoop nodes fuel processed = ⟨[], [], 1⟩ := by
  cases fuel with
  | zero => exact absurd hf (by norm_num)
  | succ f =>
    rw [findAllLoop]
    simp only []
    rw [if_pos hcard, if_pos hlen]

/-- C1 (amended): for an ordered sibling list of 7 nodes in which the
first three are mutually similar (pairwise fingerprint distance ≤ 3), the
fourth is dissimilar from each of the first three (distance > 3), and the
last three are similar to each of the first three, `findAllSimilarSequences`
does NOT return two runs of 3: it returns exactly one run with
`start = 1`, `end = 6` and `count = 6`, claiming indices 1–6 — including
the dissimilar node at index 3 — and leaving index 0 unclaimed.  (The
sliding search passes over the dissimilar fourth node because its window
holds fewer than 3 similar nodes at that point, so the run of anchor 1
absorbs it.) -/
theorem C1_seven_nodes_single_run (n0 n1 n2 n3 n4 n5 n6 : ElementNode)
    (h01 : hammingDistance (computeHashPure n0) (computeHashPure n1) ≤ 3)
    (h02 : hammingDistance (computeHashPure n0) (computeHashPure n2) ≤ 3)
    (h12 : hammingDistance (computeHashPure n1) (computeHashPure n2) ≤ 3)
    (h03 : 3 < hammingDistance (computeHashPure n0) (computeHashPure n3))
    (h13 : 3 < hammingDistance (computeHashPure n1) (computeHashPure n3))
    (h23 : 3 < hammingDistance (computeHashPure n2) (computeHashPure n3))
    (h04 : hammingDistance (computeHashPure n0) (computeHashPure n4) ≤ 3)
    (h14 : hammingDistance (computeHashPure n1) (computeHashPure n4) ≤ 3)
    (h24 : hammingDistance (computeHashPure n2) (computeHashPure n4) ≤ 3)
    (h05 : hammingDistance (computeHashPure n0) (computeHashPure n5) ≤ 3)
    (h15 : hammingDistance (computeHashPure n1) (computeHashPure n5) ≤ 3)
    (h25 : hammingDistance (computeHashPure n2) (computeHashPure n5) ≤ 3)
    (h06 : hammingDistance (computeHashPure n0) (computeHashPure n6) ≤ 3)
    (h16 : hammingDistance (computeHashPure n1) (computeHashPure n6) ≤ 3)
    (h26 : hammingDistance (computeHashPure n2) (computeHashPure n6) ≤ 3) :
    (findAllSimilarSequences [n0, n1, n2, n3, n4, n5, n6]).map
      (fun r => (r.start, r.endIdx, r.count)) = [(1, 6, 6)] ∧
    findAllClaimed [n0, n1, n2, n3, n4, n5, n6] = [[1, 2, 3, 4, 5, 6]] := by
  have hseq : findSimilarSequence [n0, n1, n2, n3, n4, n5, n6] =
      some ⟨1, 6, [n1, n2, n3, n4, n5, n6], computeHashPure n1⟩ := by
    unfold findSimilarSequence
    rw [show List.map computeHashPure [n0, n1, n2, n3, n4, n5, n6] =
      [computeHashPure n0, computeHashPure n1, computeHashPure n2, computeHashPure n3,
       computeHashPure n4, computeHashPure n5, computeHashPure n6] from rfl]
    rw [sevenScan _ _ _ _ _ _ _ h01 h02 h12 (not_le.mpr h03) (not_le.mpr h13)
      (not_le.mpr h23) h14 h15 h16]
    rfl
  have him : (((List.range (List.length [n0, n1, n2, n3, n4, n5, n6])).filter
      (fun i => i ∉ (∅ : Finset ℕ))).map
      (fun i => [n0, n1, n2, n3, n4, n5, n6].getD i default)) =
      [n0, n1, n2, n3, n4, n5, n6] := rfl
  have hlen' : ¬((((List.range (List.length [n0, n1, n2, n3, n4, n5, n6])).filter
      (fun i => i ∉ (∅ : Finset ℕ))).map
      (fun i => [n0, n1, n2, n3, n4, n5, n6].getD i default)).length < 3) := by
    rw [him]
    norm_num
  have hseq' : findSimilarSequence (((List.range
      (List.length [n0, n1, n2, n3, n4, n5, n6])).filter (fun i => i ∉ (∅ : Finset ℕ))).map
      (fun i => [n0, n1, n2, n3, n4, n5, n6].getD i default)) =
      some ⟨1, 6, [n1, n2, n3, n4, n5, n6], computeHashPure n1⟩ := by
    rw [him]
    exact hseq
  have hc2 : ((∅ : Finset ℕ) ∪
      ((List.range' ((⟨1, 6, [n1, n2, n3, n4, n5, n6], computeHashPure n1⟩ : FoundSeq).start)
        ((⟨1, 6, [n1, n2, n3, n4, n5, n6], computeHashPure n1⟩ : FoundSeq).endIdx + 1 -
         (⟨1, 6, [n1, n2, n3, n4, n5, n6], computeHashPure n1⟩ : FoundSeq).start)).map
        (fun k => ((List.range (List.length [n0, n1, n2, n3, n4, n5, n6])).filter
          (fun i => i ∉ (∅ : Finset ℕ))).getD k 0)).toFinset).card <
      List.length [n0, n1, n2, n3, n4, n5, n6] := by
    simp only []
    rw [show List.length [n0, n1, n2, n3, n4, n5, n6] = 7 from rfl]
    decide
  have hl2 : ((((List.range (List.length [n0, n1, n2, n3, n4, n5, n6])).filter
      (fun i => i ∉ ((∅ : Finset ℕ) ∪
        ((List.range' ((⟨1, 6, [n1, n2, n3, n4, n5, n6], computeHashPure n1⟩ : FoundSeq).start)
          ((⟨1, 6, [n1, n2, n3, n4, n5, n6], computeHashPure n1⟩ : FoundSeq).endIdx + 1 -
           (⟨1, 6, [n1, n2, n3, n4, n5, n6], computeHashPure n1⟩ : FoundSeq).start)).map
          (fun k => ((List.range (List.length [n0, n1, n2, n3, n4, n5, n6])).filter
            (fun i => i ∉ (∅ : Finset ℕ))).getD k 0)).toFinset))).map
      (fun i => [n0, n1, n2, n3, n4, n5, n6].getD i default)).length < 3) := by
    rw [List.length_map]
    simp only []
    rw [show List.length [n0, n1, n2, n3, n4, n5, n6] = 7 from rfl]
    exact (by norm_num : (1 : Nat) < 3)
  constructor
  · show ((findAllLoop [n0, n1, n2, n3, n4, n5, n6] (6 + 1) ∅).sequences).map
      (fun r => (r.start, r.endIdx, r.count)) = [(1, 6, 6)]
    rw [findAllLoop_succ_eq_some [n0, n1, n2, n3, n4, n5, n6] 6 ∅
      ⟨1, 6, [n1, n2, n3, n4, n5, n6], computeHashPure n1⟩ (by norm_num) hlen' hseq']
    rw [findAllLoop_pos_eq_small [n0, n1, n2, n3, n4, n5, n6] 6 _ (by norm_num) hc2 hl2]
    simp only [List.map_cons, List.map_nil]
    rw [show List.length [n0, n1, n2, n3, n4, n5, n6] = 7 from rfl]
    decide
  · show ((findAllLoop [n0, n1, n2, n3, n4, n5, n6] (6 + 1) ∅).claimed) = [[1, 2, 3, 4, 5, 6]]
    rw [findAllLoop_succ_eq_some [n0, n1, n2, n3, n4, n5, n6] 6 ∅
      ⟨1, 6, [n1, n2, n3, n4, n5, n6], computeHashPure n1⟩ (by norm_num) hlen' hseq']
    rw [findAllLoop_pos_eq_small [n0, n1, n2, n3, n4, n5, n6] 6 _ (by norm_num) hc2 hl2]
    simp only []
    rw [show List.length [n0, n1, n2, n3, n4, n5, n6] = 7 from rfl]
    decide

/-- counterexample to C1 as stated: seven concrete siblings — three
`button` leaves, one structurally different `listitem`, three more
`button` leaves — satisfy the similarity pattern of the claim (identical
fingerprints within each group, distance 9 across), yet
`findAllSimilarSequences` does not return two runs of 3: it returns a
single run `(start 1, end 6, count 6)`. -/
theorem C1_counterexample :
    hammingDistance (computeHashPure exButton) (computeHashPure exButton) ≤ 3 ∧
    3 < hammingDistance (computeHashPure exButton) (computeHashPure exList) ∧
    (findAllSimilarSequences
      [exButton, exButton, exButton, exList, exButton, exButton, exButton]).map
      (fun r => (r.start, r.endIdx, r.count)) = [(1, 6, 6)] ∧
    (findAllSimilarSequences
      [exButton, exButton, exButton, exList, exButton, exButton, exButton]).length ≠ 2 :=
  ⟨by decide, by decide, by decide, by decide⟩

/-- witness for C1 (amended): the amended theorem applied to the seven
concrete nodes of the counterexample. -/
theorem C1_seven_nodes_single_run_witness :
    (findAllSimilarSequences
      [exButton, exButton, exButton, exList, exButton, exButton, exButton]).map
      (fun r => (r.start, r.endIdx, r.count)) = [(1, 6, 6)] ∧
    findAllClaimed [exButton, exButton, exButton, exList, exButton, exButton, exButton] =
      [[1, 2, 3, 4, 5, 6]] :=
  C1_seven_nodes_single_run exButton exButton exButton exList exButton exButton exButton
    (by decide) (by decide) (by decide) (by decide) (by decide) (by decide) (by decide)
    (by decide) (by decide) (by decide) (by decide) (by decide) (by decide) (by decide)
    (by decide)

end DOMSimHash
